import Mathlib

/-!
Verification of the FWULL order-reconciliation engine.

Shallow embedding of the reconciliation core:
- `matchRegistrationsToLineItems` (ThankYouRefactored.js, lines 279-342)
- `registrationsToSave` fee computation (ThankYouRefactored.js, lines 485-495)
- `processDonations` (ThankYouRefactored.js, lines 37-148)
- `loadRegistrationQueue` (ThankYouRefactored.js, lines 155-272)
- the `$w.onReady` reconciler control flow (ThankYouRefactored.js, lines 407-542)
- the duplicate gate of `handleRegisterClick` (NewSeasonRegRefactored.js,
  lines 783-868) over the fallback queue primitives
  (NewSeasonRegRefactored_SafeFallback.js, lines 93-107)
- the circuit breaker and session-lock primitives, whose implementation files
  (backend/retryUtils.jsw, backend/sessionManager.jsw) are not part of the
  source tree and are modelled from the specification.
-/

namespace FWULL

/-- JavaScript `String.prototype.includes`: substring containment,
implemented over the character list. -/
def includesAux (needle : List Char) : List Char → Bool
  | [] => needle.isEmpty
  | c :: t => needle.isPrefixOf (c :: t) || includesAux needle t

/-- `strIncludes hay needle` is JS `hay.includes(needle)`. -/
def strIncludes (hay needle : String) : Bool :=
  includesAux needle.toList hay.toList

/-- A registration intent (`PendingIntent` of the spec): the fields of a
queued registration object that the reconciliation core reads. -/
structure Registration where
  playerId : String
  playerName : String
  seasonName : String
  sport : String
  division : String
  deriving Repr, DecidableEq

/-- An order line item as read by the reconciliation core.  `name` is
`Option` because the JS code guards with `typeof s.li.name === 'string'`;
`quantity = 0` encodes a missing or zero `quantity` (JS falsy, defaulted to
1 by `li.quantity || 1`); `totalPrice` is `Option` because the code uses the
nullish coalescing `lineItem.totalPrice ?? ...`. -/
structure LineItem where
  name : Option String
  productId : String
  price : Nat
  quantity : Nat
  totalPrice : Option Nat
  deriving Repr, DecidableEq

/-- One unit slot of a line item (`slots.push({ li, used: false })`).
`idx` is the slot's position in the slot array, carried for specification
purposes only (the JS slot objects are identified by array position). -/
structure Slot where
  idx : Nat
  li : LineItem
  used : Bool
  deriving Repr, DecidableEq

/-- Slot expansion of `matchRegistrationsToLineItems`: `qty = li.quantity || 1`
slots per line item, in source order, with running index `n`. -/
def buildSlotsAux : List LineItem → Nat → List Slot
  | [], _ => []
  | li :: rest, n =>
    let k := if li.quantity == 0 then 1 else li.quantity
    ((List.range k).map fun j => ⟨n + j, li, false⟩) ++ buildSlotsAux rest (n + k)

def buildSlots (lineItems : List LineItem) : List Slot :=
  buildSlotsAux lineItems 0

/-- The slot predicate of the JS `findIndex` callback:
`!s.used && typeof s.li.name === 'string' && s.li.name.includes(reg.division)`. -/
def slotQualifies (r : Registration) (s : Slot) : Bool :=
  !s.used &&
    (match s.li.name with
     | some n => strIncludes n r.division
     | none => false)

/-- `slots.findIndex(...)` followed by `slots[idx].used = true`: returns the
updated slot list together with the slot that was bound, or `none` when no
unused slot qualifies. -/
def bindFirst (r : Registration) : List Slot → Option (List Slot × Slot)
  | [] => none
  | s :: rest =>
    if slotQualifies r s then some ({ s with used := true } :: rest, s)
    else
      match bindFirst r rest with
      | some (rest', b) => some (s :: rest', b)
      | none => none

/-- The matching loop of `matchRegistrationsToLineItems`: each registration,
in queue order, is bound to the first unused qualifying slot (appended to
`matched` paired with that slot's line item) or appended to `unmatched`. -/
def matchLoop : List Registration → List Slot →
    List (Registration × Slot) × List Registration
  | [], _ => ([], [])
  | r :: rs, slots =>
    match bindFirst r slots with
    | some (slots', b) =>
      let p := matchLoop rs slots'
      ((r, b) :: p.1, p.2)
    | none =>
      let p := matchLoop rs slots
      (p.1, r :: p.2)

/-- `matchRegistrationsToLineItems(regQueue, lineItems)`
(ThankYouRefactored.js, lines 279-342). -/
def matchRegistrationsToLineItems (regQueue : List Registration)
    (lineItems : List LineItem) :
    List (Registration × Slot) × List Registration :=
  matchLoop regQueue (buildSlots lineItems)

/-! Specification-side matching definitions, written from the spec's words
(§4.4): "expand line items into slots in source order (one slot per unit of
quantity, preserving line-item order); for each intent, in intent-list
order, scan unused slots in slot order and bind to the first slot whose
descriptor textually contains the intent's division label; mark the slot
used and append to matched; if no slot qualifies, append the intent to
unmatched." -/

/-- Spec slot expansion: exactly one slot per unit of quantity. -/
def specSlotsAux : List LineItem → Nat → List Slot
  | [], _ => []
  | li :: rest, n =>
    ((List.range li.quantity).map fun j => ⟨n + j, li, false⟩) ++
      specSlotsAux rest (n + li.quantity)

def specSlots (lineItems : List LineItem) : List Slot :=
  specSlotsAux lineItems 0

/-- Spec scan: position of the first slot, in slot order, that is unused and
whose descriptor contains the division label. -/
def firstQualifying (r : Registration) : List Slot → Option Nat
  | [] => none
  | s :: rest =>
    if slotQualifies r s then some 0
    else (firstQualifying r rest).map (· + 1)

/-- Mark the slot at a given position used. -/
def markUsedAt : List Slot → Nat → List Slot
  | [], _ => []
  | s :: rest, 0 => { s with used := true } :: rest
  | s :: rest, n + 1 => s :: markUsedAt rest n

/-- Spec matching loop over intents in intent-list order. -/
def specLoop : List Registration → List Slot →
    List (Registration × Slot) × List Registration
  | [], _ => ([], [])
  | r :: rs, slots =>
    match firstQualifying r slots with
    | some i =>
      match slots.get? i with
      | some s =>
        let p := specLoop rs (markUsedAt slots i)
        ((r, s) :: p.1, p.2)
      | none =>
        let p := specLoop rs slots
        (p.1, r :: p.2)
    | none =>
      let p := specLoop rs slots
      (p.1, r :: p.2)

/-- The matching algorithm as described by the spec. -/
def specMatch (regQueue : List Registration) (lineItems : List LineItem) :
    List (Registration × Slot) × List Registration :=
  specLoop regQueue (specSlots lineItems)

/-! Fee extraction for the matched registrations
(ThankYouRefactored.js, lines 485-495). -/

/-- `lineItem.totalPrice ?? ((lineItem.price || 0) * (lineItem.quantity || 1))`. -/
def paidAmountOf (li : LineItem) : Nat :=
  match li.totalPrice with
  | some t => t
  | none => li.price * (if li.quantity == 0 then 1 else li.quantity)

/-- A registration record written to the authoritative store
(`SeasonRegistration`). -/
structure SavedReg where
  reg : Registration
  fee : Nat
  paid : Bool
  orderId : String
  deriving Repr, DecidableEq

/-- `registrationsToSave = matched.map(({reg, lineItem}) => {...reg, fee:
paidAmount, paid: true, orderId, ...})`. -/
def registrationsToSave (matched : List (Registration × Slot))
    (orderId : String) : List SavedReg :=
  matched.map fun p => ⟨p.1, paidAmountOf p.2.li, true, orderId⟩

/-! Donation processing (ThankYouRefactored.js, lines 37-148). -/

/-- Outcome of one `saveDonation` call: a result object with
`success: true`, a result object carrying an error, or a thrown exception. -/
inductive SyncOutcome where
  | okRes
  | errRes
  | throwEx
  deriving Repr, DecidableEq

/-- The `DONATION_PRODUCTS` map (productId to amount). -/
def DONATION_PRODUCTS : List (String × Nat) :=
  [("c8faba52-947c-4c0e-ae02-58406cfe5202", 10),
   ("80e47dc3-91ee-4b47-ad73-8c17dff81989", 20),
   ("ff86a5c7-c653-4f0e-b8b0-3b0fa3b80143", 50),
   ("9e1f3628-67c3-467e-bb99-91611426f0dc", 100)]

/-- `DONATION_PRODUCTS[productId]` truthiness check. -/
def donationAmount (productId : String) : Option Nat :=
  (DONATION_PRODUCTS.find? fun p => p.1 == productId).map Prod.snd

/-- The donation loop body: walks the line items, consuming one `saveDonation`
outcome per donation line item.  Returns the donation-synced flag and the
`errorType` values appended to the `AirtableSyncErrors` audit sink, in order.
On a result object (success or error) the flag is set
(`setDonationSynced()`); on a thrown exception the `catch` block logs and
records the error but does not set the flag. -/
def donationLoop : List LineItem → List SyncOutcome → Bool → List String →
    Bool × List String
  | [], _, synced, audit => (synced, audit.reverse)
  | li :: rest, outs, synced, audit =>
    match donationAmount li.productId with
    | none => donationLoop rest outs synced audit
    | some _ =>
      let o := outs.headD .okRes
      match o with
      | .okRes => donationLoop rest outs.tail true audit
      | .errRes => donationLoop rest outs.tail true ("DONATION_SYNC_FAILED" :: audit)
      | .throwEx =>
        donationLoop rest outs.tail synced ("DONATION_SYNC_EXCEPTION" :: audit)

/-- `processDonations(order)`: skipped entirely when `isDonationSynced()`
already holds; otherwise processes every donation line item. -/
def processDonations (synced : Bool) (lineItems : List LineItem)
    (outs : List SyncOutcome) : Bool × List String :=
  if synced then (synced, [])
  else donationLoop lineItems outs synced []

/-! Registration-data recovery (ThankYouRefactored.js, lines 155-272). -/

/-- The serialized `registrations` field of a `PendingRegistrations` record:
either JSON that parses to a registration list, or corrupt data on which
`JSON.parse` throws. -/
inductive SerForm where
  | good (regs : List Registration)
  | corrupt
  deriving Repr, DecidableEq

/-- A `PendingRegistrations` record (the `BackupRecord` of the spec).
`assocOrderId` is the order whose checkout created the record; it is not a
field the JS code ever reads and is carried for specification purposes
only. -/
structure PendingRec where
  id : String
  userId : String
  status : String
  createdAt : Int
  serialized : SerForm
  assocOrderId : String
  deriving Repr, DecidableEq

/-- Environment of a `loadRegistrationQueue` run: the backup-store contents,
the set of orderIds already present in the authoritative store
(`SeasonRegistration`), whether the backup-store query or the status update
throws, and the current time in epoch milliseconds. -/
structure CmsEnv where
  pendingRegs : List PendingRec
  seasonRegOrderIds : List String
  queryThrows : Bool
  updateThrows : Bool
  now : Int
  deriving Repr, DecidableEq

def twoHoursMs : Int := 2 * 60 * 60 * 1000

/-- The filter of the `PendingRegistrations` query: `userId` equals the
buyer, status `"pending"`, `createdAt` within the last two hours. -/
def pendingEligible (buyerId : String) (env : CmsEnv) (p : PendingRec) : Bool :=
  p.userId == buyerId && p.status == "pending" && env.now - twoHoursMs ≤ p.createdAt

/-- The query result: eligible records ordered most-recent-first
(`.descending("createdAt")`). -/
def pendingQuery (buyerId : String) (env : CmsEnv) : List PendingRec :=
  (env.pendingRegs.filter (pendingEligible buyerId env)).insertionSort
    fun a b => b.createdAt ≤ a.createdAt

/-- Result of `loadRegistrationQueue`.  `selectedId` identifies the backup
record that was claimed, when one was (specification instrumentation; the JS
function returns only `regQueue` and `source`).  `pendingAfter` is the
backup store after the status update, `audit` the `errorType` values
appended to the audit sink. -/
structure LoadResult where
  regQueue : List Registration
  source : String
  selectedId : Option String
  pendingAfter : List PendingRec
  audit : List String
  deriving Repr, DecidableEq

/-- Transition one backup record's status. -/
def setPendingStatus (regs : List PendingRec) (id status : String) :
    List PendingRec :=
  regs.map fun p => if p.id == id then { p with status := status } else p

/-- The candidate loop of `loadRegistrationQueue` (lines 197-230): for each
candidate, query `SeasonRegistration` for the *current* order's id; if no
record exists, parse the candidate's registrations, mark it `processing` and
return; otherwise skip it.  A parse failure or update failure throws into
the enclosing `catch`, which appends a `CMS_RETRIEVAL_FAILED` audit record
and falls through to the empty result. -/
def recoverLoop (orderId : String) (env : CmsEnv) : List PendingRec → LoadResult
  | [] => ⟨[], "none", none, env.pendingRegs, []⟩
  | p :: rest =>
    if (env.seasonRegOrderIds.contains orderId : Bool) then
      recoverLoop orderId env rest
    else
      match p.serialized with
      | .corrupt => ⟨[], "none", none, env.pendingRegs, ["CMS_RETRIEVAL_FAILED"]⟩
      | .good regs =>
        if env.updateThrows then
          ⟨[], "none", none, env.pendingRegs, ["CMS_RETRIEVAL_FAILED"]⟩
        else
          ⟨regs, "cms", some p.id,
            setPendingStatus env.pendingRegs p.id "processing", []⟩

/-- `loadRegistrationQueue(order)` (ThankYouRefactored.js, lines 155-272):
session queue first; then the CMS fallback guarded by a `try`/`catch` that
degrades every failure to the empty result with a `CMS_RETRIEVAL_FAILED`
audit record. -/
def loadRegistrationQueue (sessionQueue : List Registration)
    (buyerId : Option String) (orderId : String) (env : CmsEnv) : LoadResult :=
  if !sessionQueue.isEmpty then
    ⟨sessionQueue, "session", none, env.pendingRegs, []⟩
  else
    match buyerId with
    | none => ⟨[], "none", none, env.pendingRegs, []⟩
    | some b =>
      if env.queryThrows then
        ⟨[], "none", none, env.pendingRegs, ["CMS_RETRIEVAL_FAILED"]⟩
      else
        recoverLoop orderId env (pendingQuery b env)

/-! The Order Reconciler (`$w.onReady`, ThankYouRefactored.js, lines
407-542), composed with the session-manager primitives. -/

/-- Reconciliation-relevant state: session storage plus the CMS stores.
`processedOrders` and `locks` belong to backend/sessionManager.jsw, which is
not part of the source tree; they are modelled from the spec (§3
ProcessingLock, §4.6 steps 1-2 and 8). `notifications` records the orderIds
passed to `handleNoRegistrationData` (backend/errorHandler.jsw, modelled
from the spec as a fire-and-forget notification). -/
structure RState where
  processedOrders : List String
  locks : List String
  donationSynced : Bool
  regQueue : List Registration
  pendingRegs : List PendingRec
  seasonRegs : List SavedReg
  audit : List String
  notifications : List String
  deriving Repr, DecidableEq

/-- Modelled from the spec: `isOrderProcessed(orderId)` of
backend/sessionManager.jsw — "check order-processed marker for orderId". -/
def isOrderProcessed (st : RState) (orderId : String) : Bool :=
  st.processedOrders.contains orderId

/-- Modelled from the spec: `acquireProcessingLock(orderId)` of
backend/sessionManager.jsw — exclusive, keyed by orderId; "failure (lock
already held or order already processed)". -/
def acquireProcessingLock (st : RState) (orderId : String) :
    Option RState :=
  if st.locks.contains orderId || st.processedOrders.contains orderId then none
  else some { st with locks := orderId :: st.locks }

/-- Modelled from the spec: `releaseProcessingLock(orderId)` of
backend/sessionManager.jsw. -/
def releaseProcessingLock (st : RState) (orderId : String) : RState :=
  { st with locks := st.locks.filter (· ≠ orderId) }

/-- Modelled from the spec: `markOrderProcessed(orderId)` of
backend/sessionManager.jsw — §4.6 step 8 "Mark order processed, release
lock" (the call site's comment reads "Mark order as processed and release
lock"). -/
def markOrderProcessed (st : RState) (orderId : String) : RState :=
  { st with
    processedOrders := orderId :: st.processedOrders
    locks := st.locks.filter (· ≠ orderId) }

/-- The order supplied by the Thank You page (`thankYou.getOrder()`). -/
structure Order where
  id : String
  buyerId : Option String
  lineItems : List LineItem
  deriving Repr, DecidableEq

/-- Environment of one reconciler invocation: the order, the `saveDonation`
outcomes, the CMS failure switches, whether `batchSaveRegistrations` throws,
and the current time. -/
structure RunEnv where
  order : Order
  donationOuts : List SyncOutcome
  queryThrows : Bool
  updateThrows : Bool
  batchThrows : Bool
  now : Int
  deriving Repr, DecidableEq

/-- Exit label of a reconciler run. -/
inductive Exit where
  | alreadyProcessed
  | lockFailed
  | abortedNoData
  | abortedNoMatch
  | errored
  | completed
  deriving Repr, DecidableEq

/-- The CMS environment a run presents to `loadRegistrationQueue`. -/
def mkCmsEnv (env : RunEnv) (st : RState) : CmsEnv :=
  ⟨st.pendingRegs, st.seasonRegs.map (·.orderId), env.queryThrows,
    env.updateThrows, env.now⟩

/-- Identity filter of `cleanupSession` (lines 353-359): a queued
registration is removed when some matched registration shares its
(playerId, seasonName, sport). -/
def cleanupRemaining (regQueue : List Registration)
    (matched : List (Registration × Slot)) : List Registration :=
  regQueue.filter fun r =>
    !(matched.any fun m =>
      m.1.playerId == r.playerId && m.1.seasonName == r.seasonName &&
        m.1.sport == r.sport)

/-- The CMS part of `cleanupSession` (lines 367-402): when the data came
from the CMS, the most recent `processing` record of the buyer within the
recency window is marked `completed` (failures are non-fatal). -/
def cleanupPending (st : RState) (env : RunEnv) (source : String) :
    List PendingRec :=
  if source == "cms" then
    match env.order.buyerId with
    | none => st.pendingRegs
    | some b =>
      let cand := (st.pendingRegs.filter fun p =>
        p.userId == b && p.status == "processing" &&
          env.now - twoHoursMs ≤ p.createdAt).insertionSort
        fun a c => c.createdAt ≤ a.createdAt
      match cand.head? with
      | none => st.pendingRegs
      | some p => setPendingStatus st.pendingRegs p.id "completed"
  else st.pendingRegs

/-- Duplicate-prevention of the transaction manager (modelled from the spec
§4.5: "before writing, the authoritative store is checked for an existing
record with the same orderId+intentId identity; a pre-existing record
short-circuits to success without re-writing").
backend/transactionManager.jsw is not part of the source tree. -/
def batchSave (seasonRegs : List SavedReg) (toSave : List SavedReg) :
    List SavedReg :=
  seasonRegs ++ toSave.filter fun s =>
    !(seasonRegs.any fun e =>
      e.orderId == s.orderId && e.reg.playerId == s.reg.playerId)

/-- Donation step of the reconciler (line 449): run `processDonations`,
recording the donation-sync flag and the audit entries. -/
def postDonations (env : RunEnv) (st1 : RState) : RState :=
  let don := processDonations st1.donationSynced env.order.lineItems
    env.donationOuts
  { st1 with donationSynced := don.1, audit := st1.audit ++ don.2 }

/-- Intent-loading step of the reconciler (line 452). -/
def loadFor (env : RunEnv) (st2 : RState) : LoadResult :=
  loadRegistrationQueue st2.regQueue env.order.buyerId env.order.id
    (mkCmsEnv env st2)

/-- Fold the load result's store effects into the state. -/
def postLoad (st2 : RState) (lr : LoadResult) : RState :=
  { st2 with pendingRegs := lr.pendingAfter, audit := st2.audit ++ lr.audit }

/-- Save-and-cleanup steps of the reconciler (lines 485-514). -/
def saveAndCleanup (env : RunEnv) (st3 : RState) (lr : LoadResult)
    (matched : List (Registration × Slot)) : RState :=
  let st4 := { st3 with
    seasonRegs := batchSave st3.seasonRegs
      (registrationsToSave matched env.order.id) }
  { st4 with
    regQueue := cleanupRemaining lr.regQueue matched
    pendingRegs := cleanupPending st4 env lr.source }

/-- One reconciler invocation, from the already-processed check (line 436)
to completion.  Exceptions raised by `batchSaveRegistrations` reach the
inner `catch` (lines 530-537), which releases the lock; donation processing
and intent loading catch their own failures internally and never throw.
The two abort paths (`return` at lines 466 and 481) exit directly. -/
def runReconciler (env : RunEnv) (st : RState) : RState × Exit :=
  let oid := env.order.id
  if isOrderProcessed st oid then (st, .alreadyProcessed)
  else
    match acquireProcessingLock st oid with
    | none => (st, .lockFailed)
    | some st1 =>
      let st2 := postDonations env st1
      let lr := loadFor env st2
      let st3 := postLoad st2 lr
      if lr.regQueue.isEmpty then
        ({ st3 with notifications := st3.notifications ++ [oid] },
          .abortedNoData)
      else
        let mr := matchRegistrationsToLineItems lr.regQueue env.order.lineItems
        if mr.1.isEmpty then (st3, .abortedNoMatch)
        else if env.batchThrows then (releaseProcessingLock st3 oid, .errored)
        else (markOrderProcessed (saveAndCleanup env st3 lr mr.1) oid,
          .completed)

/-! The Intent Queue duplicate gate (NewSeasonRegRefactored.js, lines
472-503 and 783-868; NewSeasonRegRefactored_SafeFallback.js, lines
93-107). -/

/-- Identity of an intent: (playerIdentity, season, sport). -/
def sameIdentity (a b : Registration) : Bool :=
  a.playerId == b.playerId && a.seasonName == b.seasonName && a.sport == b.sport

/-- `isDuplicateInQueue(reg)` (fallback implementation,
NewSeasonRegRefactored_SafeFallback.js): some queued registration shares the
candidate's (playerId, seasonName, sport). -/
def isDuplicateInQueue (q : List Registration) (r : Registration) : Bool :=
  q.any fun x => sameIdentity x r

/-- `addToRegQueue(item)` (fallback implementation): plain push. -/
def addToRegQueue (q : List Registration) (r : Registration) :
    List Registration :=
  q ++ [r]

/-- The duplicate gate of `handleRegisterClick` (lines 826-845):
`checkForDuplicates` consults the CMS (`cmsDup`) and then the session queue;
a duplicate is rejected with a message and the queue is left unchanged,
otherwise the item is appended.  Returns the new queue and whether the
intent was accepted. -/
def registerAdd (cmsDup : Bool) (q : List Registration) (r : Registration) :
    List Registration × Bool :=
  if cmsDup then (q, false)
  else if isDuplicateInQueue q r then (q, false)
  else (addToRegQueue q r, true)

/-- Fold a sequence of registration submissions through the gate. -/
def registerAll (ops : List (Bool × Registration)) (q : List Registration) :
    List Registration :=
  ops.foldl (fun acc op => (registerAdd op.1 acc op.2).1) q

/-! The circuit breaker.  backend/retryUtils.jsw is not part of the source
tree (src/SAFE_DEPLOYMENT_GUIDE.md documents only its interface and tests);
the breaker is modelled from the spec (§4.1): threshold 5, cooldown 60 s,
states CLOSED / OPEN / HALF_OPEN. -/

inductive CBState where
  | closed
  | opened
  | halfOpen
  deriving Repr, DecidableEq

/-- Modelled from the spec: a circuit breaker instance of
backend/retryUtils.jsw. -/
structure Breaker where
  state : CBState
  failureCount : Nat
  successCount : Nat
  nextAttemptTime : Option Int
  deriving Repr, DecidableEq

def cbThreshold : Nat := 5
def cbCooldownMs : Int := 60000

/-- A fresh breaker (created lazily per dependency name). -/
def freshBreaker : Breaker := ⟨.closed, 0, 0, none⟩

inductive OpResult where
  | success
  | failure
  deriving Repr, DecidableEq

inductive CBCallResult where
  | ok
  | opFailed
  | circuitOpen
  deriving Repr, DecidableEq

/-- Modelled from the spec: `CircuitBreaker.execute` of
backend/retryUtils.jsw.  Returns the new breaker state, whether the wrapped
operation was invoked, and the call result.  An OPEN breaker whose
`nextAttemptTime` has elapsed first moves to HALF_OPEN, then the call is the
single trial. -/
def cbExecute (b : Breaker) (now : Int) (op : OpResult) :
    Breaker × Bool × CBCallResult :=
  let b :=
    match b.state, b.nextAttemptTime with
    | .opened, some t => if t ≤ now then { b with state := .halfOpen } else b
    | _, _ => b
  match b.state with
  | .closed =>
    match op with
    | .success =>
      ({ b with failureCount := 0, successCount := b.successCount + 1 },
        true, .ok)
    | .failure =>
      let fc := b.failureCount + 1
      if cbThreshold ≤ fc then
        (⟨.opened, fc, b.successCount, some (now + cbCooldownMs)⟩, true,
          .opFailed)
      else ({ b with failureCount := fc }, true, .opFailed)
  | .opened => (b, false, .circuitOpen)
  | .halfOpen =>
    match op with
    | .success => (⟨.closed, 0, 0, none⟩, true, .ok)
    | .failure =>
      (⟨.opened, b.failureCount, b.successCount, some (now + cbCooldownMs)⟩,
        true, .opFailed)

/-- Iterate `cbExecute` over a list of timed operation results. -/
def cbRun (b : Breaker) : List (Int × OpResult) → Breaker
  | [] => b
  | (t, op) :: rest => cbRun (cbExecute b t op).1 rest

/-- Number of donation line items in an order (each consumes one
`saveDonation` outcome). -/
def donCount (items : List LineItem) : Nat :=
  items.countP fun li => (donationAmount li.productId).isSome

/-- The outcome consumed by the i-th donation sync attempt (`okRes` once
the supplied list is exhausted). -/
def outcomeAt (outs : List SyncOutcome) (i : Nat) : SyncOutcome :=
  outs.getD i .okRes

/-- Indices of unused slots, in slot order. -/
def unusedIdx (slots : List Slot) : List Nat :=
  (slots.filter fun s => !s.used).map (·.idx)

/-- Number of slots the code builds for a line-item list. -/
def slotCount : List LineItem → Nat
  | [] => 0
  | li :: rest => (if li.quantity == 0 then 1 else li.quantity) + slotCount rest

/-! Concrete instances used by scenario theorems, counterexamples and
witnesses. -/

/-- A "Majors" intent (the spec's scenario intent). -/
def regMajors : Registration := ⟨"p1", "Kid One", "2026.1", "Baseball", "Majors"⟩

/-- A second intent, in the "Minors" division. -/
def regMinors : Registration := ⟨"p2", "Kid Two", "2026.1", "Baseball", "Minors"⟩

/-- The spec scenario line item: descriptor "Baseball Majors - 2026.1",
quantity 1, unit price 150. -/
def liMajors1 : LineItem :=
  ⟨some "Baseball Majors - 2026.1", "prod-maj", 150, 1, some 150⟩

/-- The same product with quantity 2 (line-item total 300). -/
def liMajors2 : LineItem :=
  ⟨some "Baseball Majors - 2026.1", "prod-maj", 150, 2, some 300⟩

/-- A donation line item ($10 donation product). -/
def liDonation : LineItem :=
  ⟨some "Donation", "c8faba52-947c-4c0e-ae02-58406cfe5202", 10, 1, some 10⟩

/-- The empty reconciliation state. -/
def stEmpty : RState := ⟨[], [], false, [], [], [], [], []⟩

/-- A state whose session queue holds the Majors intent. -/
def stQueued : RState := ⟨[], [], false, [regMajors], [], [], [], []⟩

/-- An environment with no recoverable registration data: empty session
queue, no buyer id, no line items. -/
def envNoData : RunEnv := ⟨⟨"ord1", none, []⟩, [], false, false, false, 0⟩

/-- An environment in which reconciliation of `ord1` fully succeeds. -/
def envGood : RunEnv :=
  ⟨⟨"ord1", some "b1", [liMajors1]⟩, [], false, false, false, 0⟩

/-- A pending backup record whose associated order `ordX` already has an
authoritative record. -/
def pendA : PendingRec := ⟨"pendA", "b1", "pending", -1000, .good [regMajors], "ordX"⟩

/-- An older pending backup record whose associated order `ordY` has no
authoritative record. -/
def pendB : PendingRec := ⟨"pendB", "b1", "pending", -2000, .good [regMinors], "ordY"⟩

/-- A stale pending backup record created 3 hours ago. -/
def pendOld : PendingRec :=
  ⟨"pendOld", "b1", "pending", -(3 * 60 * 60 * 1000), .good [regMinors], "ordV"⟩

/-- Backup-store environment for the recovery counterexample: `ordX` already
has an authoritative record, the current order `ordZ` does not. -/
def envRecovery : CmsEnv := ⟨[pendA, pendB], ["ordX"], false, false, 0⟩

/-- Backup-store environment holding a fresh and a 3-hour-old record. -/
def envStale : CmsEnv := ⟨[pendA, pendOld], [], false, false, 0⟩

/-- Backup-store environment whose query throws. -/
def envQueryThrows : CmsEnv := ⟨[pendA], [], true, false, 0⟩

/-- Five failing calls at times 0. -/
def fails5 : List (Int × OpResult) :=
  [(0, .failure), (0, .failure), (0, .failure), (0, .failure), (0, .failure)]

/-! Theorems. -/

/-- C1, counterexample: for a matched line item with quantity 2, unit price
150 and line-item total 300, the saved `fee` is 300 — the line-item total —
and not the per-unit price 300 / 2 = 150 that the claim asserts. -/
theorem C1_paidAmount_counterexample :
    (registrationsToSave
        (matchRegistrationsToLineItems [regMajors] [liMajors2]).1 "ord1").map
        (·.fee) = [300]
    ∧ liMajors2.quantity = 2
    ∧ liMajors2.totalPrice = some 300
    ∧ ((registrationsToSave
        (matchRegistrationsToLineItems [regMajors] [liMajors2]).1 "ord1").map
        (·.fee) ≠ [(300 : Nat) / 2]) := by
  refine ⟨rfl, rfl, rfl, ?_⟩
  decide

/-- C1, amended: the `fee` recorded on each saved registration is the bound
slot's line-item total price (`totalPrice`, or `price × quantity` when
`totalPrice` is absent), not the per-unit price; the two coincide when the
quantity is 1, so the scenario — an intent with division "Majors" matched
against a line item with descriptor "Baseball Majors - 2026.1", quantity 1
and unit price 150 — records `paidAmount` 150 with no unmatched intent. -/
theorem C1_paidAmount_amended :
    (∀ (matched : List (Registration × Slot)) (oid : String),
      (registrationsToSave matched oid).map (·.fee) =
        matched.map fun p => paidAmountOf p.2.li)
    ∧ registrationsToSave
        (matchRegistrationsToLineItems [regMajors] [liMajors1]).1 "ord1" =
        [⟨regMajors, 150, true, "ord1"⟩]
    ∧ (matchRegistrationsToLineItems [regMajors] [liMajors1]).2 = [] := by
  refine ⟨fun matched oid => ?_, rfl, rfl⟩
  simp [registrationsToSave]

/-- C2, counterexample: a reconciler run that finds no registration data
terminates on the abort path (line 466) with the processing lock for its
orderId still held — the lock is leaked, so the claim that every exit path
releases the lock is false. -/
theorem C2_lock_leak_counterexample :
    (runReconciler envNoData stEmpty).2 = .abortedNoData
    ∧ "ord1" ∈ (runReconciler envNoData stEmpty).1.locks := by
  exact ⟨rfl, by decide⟩

/-- C8, counterexample: when `saveDonation` throws, the `catch` block logs a
`DONATION_SYNC_EXCEPTION` audit record but does not call
`setDonationSynced()`, so the donation-sync flag stays false and a second
invocation for the order attempts the donation sync again. -/
theorem C8_donation_flag_counterexample :
    processDonations false [liDonation] [.throwEx] =
      (false, ["DONATION_SYNC_EXCEPTION"])
    ∧ (processDonations (processDonations false [liDonation] [.throwEx]).1
        [liDonation] [.errRes]).2 = ["DONATION_SYNC_FAILED"] := by
  exact ⟨rfl, rfl⟩

/-- C9: from a fresh breaker, 5 consecutive failures open the circuit with
`nextAttemptTime` 60 s past the fifth failure; while the cooldown has not
elapsed every call fails fast with `CircuitOpen` and the wrapped operation
is not invoked; once the cooldown elapses the breaker half-opens and the
single trial call either closes the breaker with counters reset (success)
or reopens it with a fresh cooldown (failure).  The breaker implementation
(backend/retryUtils.jsw) is not in the source tree and is modelled from the
spec (§4.1). -/
theorem C9_circuit_breaker :
    (∀ t1 t2 t3 t4 t5 : Int,
      cbRun freshBreaker
        [(t1, .failure), (t2, .failure), (t3, .failure), (t4, .failure),
          (t5, .failure)] =
        ⟨.opened, 5, 0, some (t5 + cbCooldownMs)⟩)
    ∧ (∀ (b : Breaker) (now t : Int) (op : OpResult),
        b.state = .opened → b.nextAttemptTime = some t → now < t →
        cbExecute b now op = (b, false, .circuitOpen))
    ∧ (∀ (b : Breaker) (now t : Int),
        b.state = .opened → b.nextAttemptTime = some t → t ≤ now →
        cbExecute b now .success = (⟨.closed, 0, 0, none⟩, true, .ok)
        ∧ cbExecute b now .failure =
            (⟨.opened, b.failureCount, b.successCount,
              some (now + cbCooldownMs)⟩, true, .opFailed)) := by
  refine ⟨?_, ?_, ?_⟩
  · intro t1 t2 t3 t4 t5
    simp [cbRun, cbExecute, freshBreaker, cbThreshold, cbCooldownMs]
  · intro b now t op hs hn hlt
    cases b
    simp only at hs hn
    subst hs hn
    simp [cbExecute, not_le.mpr hlt]
  · intro b now t hs hn hle
    cases b
    simp only at hs hn
    subst hs hn
    constructor <;> simp [cbExecute, hle]

lemma postDonations_locks (env : RunEnv) (s : RState) :
    (postDonations env s).locks = s.locks := rfl

lemma postLoad_locks (s : RState) (lr : LoadResult) :
    (postLoad s lr).locks = s.locks := rfl

/-- A completed reconciler run leaves its orderId marked processed. -/
lemma run_completed_processed (env : RunEnv) (st st1 : RState)
    (h : runReconciler env st = (st1, .completed)) :
    env.order.id ∈ st1.processedOrders := by
  by_cases h1 : isOrderProcessed st env.order.id = true
  · simp [runReconciler, h1] at h
  · rcases h2 : acquireProcessingLock st env.order.id with _ | s1
    · simp [runReconciler, h1, h2] at h
    · by_cases h3 : (loadFor env (postDonations env s1)).regQueue.isEmpty = true
      · simp [runReconciler, h1, h2, h3] at h
      · by_cases h4 : (matchRegistrationsToLineItems
            (loadFor env (postDonations env s1)).regQueue
            env.order.lineItems).1.isEmpty = true
        · simp [runReconciler, h1, h2, h3, h4] at h
        · by_cases h5 : env.batchThrows = true
          · simp [runReconciler, h1, h2, h3, h4, h5] at h
          · have key : runReconciler env st =
                (markOrderProcessed (saveAndCleanup env
                  (postLoad (postDonations env s1) (loadFor env (postDonations env s1)))
                  (loadFor env (postDonations env s1))
                  (matchRegistrationsToLineItems
                    (loadFor env (postDonations env s1)).regQueue
                    env.order.lineItems).1)
                  env.order.id, .completed) := by
              simp [runReconciler, h1, h2, h3, h4, h5]
            rw [key] at h
            cases h
            simp [markOrderProcessed]

/-- C2, amended: the reconciler releases the processing lock on the success
path (via `markOrderProcessed`) and on the exception path (the inner
`catch`), and a run that never acquired the lock leaves the state untouched;
but on the two abort paths — no registration data, and zero matched
intents — the lock is NOT released and remains held when the run
terminates.  The lock primitives (backend/sessionManager.jsw) are not in
the source tree and are modelled from the spec. -/
theorem C2_lock_release_amended (env : RunEnv) (st : RState) :
    ((runReconciler env st).2 = .completed →
      env.order.id ∉ (runReconciler env st).1.locks)
    ∧ ((runReconciler env st).2 = .errored →
      env.order.id ∉ (runReconciler env st).1.locks)
    ∧ ((runReconciler env st).2 = .abortedNoData →
      env.order.id ∈ (runReconciler env st).1.locks)
    ∧ ((runReconciler env st).2 = .abortedNoMatch →
      env.order.id ∈ (runReconciler env st).1.locks)
    ∧ ((runReconciler env st).2 = .alreadyProcessed ∨
        (runReconciler env st).2 = .lockFailed →
      (runReconciler env st).1 = st) := by
  by_cases h1 : isOrderProcessed st env.order.id = true
  · have key : runReconciler env st = (st, .alreadyProcessed) := by
      simp [runReconciler, h1]
    simp [key]
  · rcases h2 : acquireProcessingLock st env.order.id with _ | st1
    · have key : runReconciler env st = (st, .lockFailed) := by
        simp [runReconciler, h1, h2]
      simp [key]
    · have hl : st1.locks = env.order.id :: st.locks := by
        unfold acquireProcessingLock at h2
        split at h2
        · simp at h2
        · cases h2; rfl
      by_cases h3 : (loadFor env (postDonations env st1)).regQueue.isEmpty = true
      · have key : runReconciler env st =
            ({ postLoad (postDonations env st1) (loadFor env (postDonations env st1)) with
                notifications := (postLoad (postDonations env st1)
                  (loadFor env (postDonations env st1))).notifications ++
                  [env.order.id] },
              .abortedNoData) := by
          simp [runReconciler, h1, h2, h3]
        simp [key, postLoad_locks, postDonations_locks, hl]
      · by_cases h4 : (matchRegistrationsToLineItems
            (loadFor env (postDonations env st1)).regQueue
            env.order.lineItems).1.isEmpty = true
        · have key : runReconciler env st =
              (postLoad (postDonations env st1) (loadFor env (postDonations env st1)),
                .abortedNoMatch) := by
            simp [runReconciler, h1, h2, h3, h4]
          simp [key, postLoad_locks, postDonations_locks, hl]
        · by_cases h5 : env.batchThrows = true
          · have key : runReconciler env st =
                (releaseProcessingLock (postLoad (postDonations env st1)
                  (loadFor env (postDonations env st1))) env.order.id, .errored) := by
              simp [runReconciler, h1, h2, h3, h4, h5]
            simp [key, releaseProcessingLock, List.mem_filter]
          · have key : runReconciler env st =
                (markOrderProcessed (saveAndCleanup env
                  (postLoad (postDonations env st1) (loadFor env (postDonations env st1)))
                  (loadFor env (postDonations env st1))
                  (matchRegistrationsToLineItems
                    (loadFor env (postDonations env st1)).regQueue
                    env.order.lineItems).1)
                  env.order.id, .completed) := by
              simp [runReconciler, h1, h2, h3, h4, h5]
            simp [key, markOrderProcessed, List.mem_filter]

/-- C2, amended, witness: the abort-path conjunct applied to the
no-registration-data run, showing the lock still held at exit. -/
theorem C2_lock_release_amended_witness :
    "ord1" ∈ (runReconciler envNoData stEmpty).1.locks :=
  (C2_lock_release_amended envNoData stEmpty).2.2.1 rfl

/-- C3: a second reconciler invocation for an orderId whose first run
completed observes the order-processed marker and exits immediately as a
no-op, leaving the state — in particular the authoritative store — exactly
as the first run left it, so exactly one completed reconciliation exists
for the orderId.  The marker primitives (backend/sessionManager.jsw) are
not in the source tree and are modelled from the spec. -/
theorem C3_idempotent (env env2 : RunEnv) (st st1 : RState)
    (h : runReconciler env st = (st1, .completed))
    (hid : env2.order.id = env.order.id) :
    runReconciler env2 st1 = (st1, .alreadyProcessed) := by
  have hp : env.order.id ∈ st1.processedOrders :=
    run_completed_processed env st st1 h
  have hq : isOrderProcessed st1 env2.order.id = true := by
    rw [hid]
    exact List.elem_iff.mpr hp
  simp [runReconciler, hq]

/-- C3, witness: a fully successful run of `envGood` followed by a second
invocation of the same order, which is a state-preserving no-op. -/
theorem C3_idempotent_witness :
    runReconciler envGood (runReconciler envGood stQueued).1 =
      ((runReconciler envGood stQueued).1, .alreadyProcessed) :=
  C3_idempotent envGood envGood stQueued _ rfl rfl

/-- C4, counterexample: the no-data abort itself behaves as claimed (one
notification for the order, no write, not marked processed), but the
claim's conclusion that "a future invocation may retry recovery" is false:
the lock leaked on this path makes the next invocation for the same order
exit at lock acquisition with the state unchanged — recovery is never
retried. -/
theorem C4_retry_counterexample :
    (runReconciler envNoData stEmpty).2 = .abortedNoData
    ∧ (runReconciler envNoData stEmpty).1.notifications = ["ord1"]
    ∧ "ord1" ∉ (runReconciler envNoData stEmpty).1.processedOrders
    ∧ runReconciler envNoData (runReconciler envNoData stEmpty).1 =
        ((runReconciler envNoData stEmpty).1, .lockFailed) := by
  exact ⟨rfl, rfl, by decide, rfl⟩

/-- C4, amended: when the session queue is empty and backup recovery yields
no intents, the run aborts with `abortedNoData`: exactly one
`handleNoRegistrationData` notification carrying the order's id is fired,
the authoritative store is untouched, and the order is not marked
processed; however, because the lock is not released on this abort path, a
subsequent invocation for the same order fails lock acquisition and exits
without retrying recovery. -/
theorem C4_data_loss_abort (env : RunEnv) (st : RState)
    (h1 : env.order.id ∉ st.processedOrders)
    (h2 : env.order.id ∉ st.locks)
    (h3 : (loadRegistrationQueue st.regQueue env.order.buyerId env.order.id
      (mkCmsEnv env st)).regQueue = []) :
    (runReconciler env st).2 = .abortedNoData
    ∧ (runReconciler env st).1.notifications = st.notifications ++ [env.order.id]
    ∧ (runReconciler env st).1.seasonRegs = st.seasonRegs
    ∧ (runReconciler env st).1.processedOrders = st.processedOrders
    ∧ env.order.id ∉ (runReconciler env st).1.processedOrders
    ∧ (∀ env2 : RunEnv, env2.order.id = env.order.id →
        runReconciler env2 (runReconciler env st).1 =
          ((runReconciler env st).1, .lockFailed)) := by
  have e1 : isOrderProcessed st env.order.id = false := by
    simp [isOrderProcessed, h1]
  have e2 : acquireProcessingLock st env.order.id =
      some { st with locks := env.order.id :: st.locks } := by
    simp [acquireProcessingLock, h1, h2]
  have hb : loadFor env
      (postDonations env { st with locks := env.order.id :: st.locks }) =
      loadRegistrationQueue st.regQueue env.order.buyerId env.order.id
        (mkCmsEnv env st) := rfl
  have key : runReconciler env st =
      ({ postLoad (postDonations env { st with locks := env.order.id :: st.locks })
          (loadFor env (postDonations env { st with locks := env.order.id :: st.locks })) with
          notifications := (postLoad
            (postDonations env { st with locks := env.order.id :: st.locks })
            (loadFor env
              (postDonations env { st with locks := env.order.id :: st.locks }))).notifications
            ++ [env.order.id] },
        .abortedNoData) := by
    simp [runReconciler, e1, e2, hb, h3]
  rw [key]
  refine ⟨rfl, ?_, ?_, ?_, ?_, ?_⟩
  · simp [postLoad, postDonations]
  · simp [postLoad, postDonations]
  · simp [postLoad, postDonations]
  · simp [postLoad, postDonations, h1]
  · intro env2 hid
    have hproc : isOrderProcessed
        { postLoad (postDonations env { st with locks := env.order.id :: st.locks })
            (loadFor env (postDonations env { st with locks := env.order.id :: st.locks })) with
            notifications := (postLoad
              (postDonations env { st with locks := env.order.id :: st.locks })
              (loadFor env
                (postDonations env { st with locks := env.order.id :: st.locks }))).notifications
              ++ [env.order.id] }
        env2.order.id = false := by
      rw [hid]
      simp [isOrderProcessed, postLoad, postDonations, h1]
    have hacq : acquireProcessingLock
        { postLoad (postDonations env { st with locks := env.order.id :: st.locks })
            (loadFor env (postDonations env { st with locks := env.order.id :: st.locks })) with
            notifications := (postLoad
              (postDonations env { st with locks := env.order.id :: st.locks })
              (loadFor env
                (postDonations env { st with locks := env.order.id :: st.locks }))).notifications
              ++ [env.order.id] }
        env2.order.id = none := by
      rw [hid]
      simp [acquireProcessingLock, postLoad, postDonations]
    simp [runReconciler, hproc, hacq]

/-- C4, amended, witness: the no-data environment aborts with one
notification for `ord1`, no authoritative write and no processed marker,
and a second invocation for `ord1` exits at lock acquisition without
retrying recovery. -/
theorem C4_data_loss_abort_witness :
    (runReconciler envNoData stEmpty).2 = .abortedNoData
    ∧ (runReconciler envNoData stEmpty).1.notifications = [] ++ ["ord1"]
    ∧ (runReconciler envNoData stEmpty).1.seasonRegs = []
    ∧ runReconciler envNoData (runReconciler envNoData stEmpty).1 =
        ((runReconciler envNoData stEmpty).1, .lockFailed) := by
  have h := C4_data_loss_abort envNoData stEmpty (by decide) (by decide) rfl
  exact ⟨h.1, h.2.1, h.2.2.1, h.2.2.2.2.2 envNoData rfl⟩

lemma sameIdentity_trans {a b c : Registration} (h1 : sameIdentity a c = true)
    (h2 : sameIdentity b c = true) : sameIdentity a b = true := by
  simp only [sameIdentity, Bool.and_eq_true, beq_iff_eq] at *
  exact ⟨⟨h1.1.1.trans h2.1.1.symm, h1.1.2.trans h2.1.2.symm⟩,
    h1.2.trans h2.2.symm⟩

/-- The register gate preserves freedom from duplicate identities. -/
lemma registerAdd_preserves (c : Bool) (q : List Registration) (r : Registration)
    (h : q.Pairwise fun a b => sameIdentity a b = false) :
    ((registerAdd c q r).1).Pairwise fun a b => sameIdentity a b = false := by
  unfold registerAdd
  split
  · exact h
  · split
    · exact h
    · rename_i hc hd
      unfold addToRegQueue
      rw [List.pairwise_append]
      refine ⟨h, List.pairwise_singleton _ _, ?_⟩
      intro a ha b hb
      simp only [List.mem_singleton] at hb
      subst hb
      simp only [isDuplicateInQueue, List.any_eq_true, not_exists, not_and] at hd
      have := hd a ha
      simp only [Bool.not_eq_true] at this
      exact this

lemma registerAll_pairwise : ∀ (ops : List (Bool × Registration))
    (q : List Registration),
    q.Pairwise (fun a b => sameIdentity a b = false) →
    (registerAll ops q).Pairwise fun a b => sameIdentity a b = false := by
  intro ops
  induction ops with
  | nil => intro q h; exact h
  | cons op rest ih =>
    intro q h
    exact ih _ (registerAdd_preserves op.1 q op.2 h)

/-- A list with pairwise distinct identities holds at most one intent of
any given identity. -/
lemma countP_le_one_of_pairwise : ∀ (l : List Registration),
    l.Pairwise (fun a b => sameIdentity a b = false) →
    ∀ r, (l.countP fun x => sameIdentity x r) ≤ 1 := by
  intro l hl r
  induction l with
  | nil => simp
  | cons a t ih =>
    rcases List.pairwise_cons.mp hl with ⟨ha, ht⟩
    by_cases hm : sameIdentity a r = true
    · have hz : (t.countP fun x => sameIdentity x r) = 0 := by
        rw [List.countP_eq_zero]
        intro x hx hxr
        have hax : sameIdentity a x = true := sameIdentity_trans hm hxr
        rw [ha x hx] at hax
        cases hax
      simp [List.countP_cons, hm, hz]
    · have hm' : sameIdentity a r = false := by
        simpa using hm
      simp only [List.countP_cons, hm', if_false]
      simpa using ih ht

/-- C7: a registration submission whose (playerId, seasonName, sport)
identity is already present in the queue is rejected by the duplicate gate
— the queue is returned unchanged and the add signalled as a duplicate —
and consequently every queue state reachable from the empty queue through
the register flow is free of duplicate identities: it holds at most one
intent of any identity. -/
theorem C7_duplicate_suppression :
    (∀ (cms : Bool) (q : List Registration) (r : Registration),
      isDuplicateInQueue q r = true → registerAdd cms q r = (q, false))
    ∧ (∀ ops : List (Bool × Registration),
        (registerAll ops []).Pairwise fun a b => sameIdentity a b = false)
    ∧ (∀ (ops : List (Bool × Registration)) (r : Registration),
        ((registerAll ops []).countP fun x => sameIdentity x r) ≤ 1) := by
  refine ⟨?_, ?_, ?_⟩
  · intro cms q r h
    unfold registerAdd
    split
    · rfl
    · simp [h]
  · intro ops
    exact registerAll_pairwise ops [] List.Pairwise.nil
  · intro ops r
    exact countP_le_one_of_pairwise _ (registerAll_pairwise ops [] List.Pairwise.nil) r

/-- C7, witness: re-submitting the Majors intent against a queue already
holding it is rejected and leaves the queue unchanged. -/
theorem C7_duplicate_suppression_witness :
    registerAdd false [regMajors] regMajors = ([regMajors], false) :=
  C7_duplicate_suppression.1 false [regMajors] regMajors (by decide)

/-- When the current order already has an authoritative record, the
candidate loop skips every candidate and returns the empty result. -/
lemma recoverLoop_processed (orderId : String) (env : CmsEnv)
    (h : env.seasonRegOrderIds.contains orderId = true) :
    ∀ l, recoverLoop orderId env l = ⟨[], "none", none, env.pendingRegs, []⟩ := by
  intro l
  induction l with
  | nil => rfl
  | cons p rest ih =>
    unfold recoverLoop
    simp only [h, if_true]
    exact ih

/-- A selected backup record comes from the candidate list. -/
lemma recoverLoop_selected (orderId : String) (env : CmsEnv) :
    ∀ (l : List PendingRec) (i : String),
      (recoverLoop orderId env l).selectedId = some i → ∃ p ∈ l, p.id = i := by
  intro l
  induction l with
  | nil => intro i h; simp [recoverLoop] at h
  | cons p rest ih =>
    intro i h
    unfold recoverLoop at h
    split at h
    · rcases ih i h with ⟨p', hp', he⟩
      exact ⟨p', List.mem_cons_of_mem _ hp', he⟩
    · split at h
      · simp at h
      · split at h
        · simp at h
        · simp only at h
          cases h
          exact ⟨p, List.mem_cons_self _ _, rfl⟩

/-- Membership in the backup-store query result implies the filter
conditions: buyer's record, status pending, within the 2-hour window. -/
lemma pendingQuery_mem (b : String) (env : CmsEnv) (p : PendingRec)
    (h : p ∈ pendingQuery b env) :
    p ∈ env.pendingRegs ∧ p.userId = b ∧ p.status = "pending" ∧
      env.now - twoHoursMs ≤ p.createdAt := by
  unfold pendingQuery at h
  have h2 : p ∈ env.pendingRegs.filter (pendingEligible b env) :=
    (List.perm_insertionSort _ _).mem_iff.mp h
  rw [List.mem_filter] at h2
  rcases h2 with ⟨hm, he⟩
  unfold pendingEligible at he
  simp only [Bool.and_eq_true, beq_iff_eq, decide_eq_true_eq] at he
  exact ⟨hm, he.1.1, he.1.2, he.2⟩

/-- C6, counterexample: with the authoritative store already holding a
record for `ordX` — the order associated with the most recent pending
backup record `pendA` — and the current order `ordZ` unprocessed, recovery
selects `pendA` anyway: the already-produced check queries the store for
the *current* order's id, not the candidate's, so the claim's selection
rule (skip `pendA`, return `pendB`) is violated. -/
theorem C6_recovery_counterexample :
    (loadRegistrationQueue [] (some "b1") "ordZ" envRecovery).selectedId =
      some pendA.id
    ∧ (loadRegistrationQueue [] (some "b1") "ordZ" envRecovery).regQueue =
      [regMajors]
    ∧ pendA.assocOrderId ∈ envRecovery.seasonRegOrderIds
    ∧ pendB ∈ pendingQuery "b1" envRecovery
    ∧ pendB.assocOrderId ∉ envRecovery.seasonRegOrderIds
    ∧ (loadRegistrationQueue [] (some "b1") "ordZ" envRecovery).selectedId ≠
      some pendB.id := by
  exact ⟨rfl, rfl, by decide, by decide, by decide, by decide⟩

/-- C6, amended: backup recovery considers only the buyer's pending records
created within the last 2 hours, most-recent-first — any selected record
satisfies these conditions, and in particular a record created 3 hours ago
is never selected; the already-produced check queries the authoritative
store for the *triggering* order's orderId (the same check for every
candidate): if the current order already has an authoritative record no
candidate is returned, otherwise the most recent eligible candidate is
selected, transitioned to status processing, and its deserialized intents
returned. -/
theorem C6_recovery_amended (b orderId : String) (env : CmsEnv)
    (hq : env.queryThrows = false)
    (hn : (env.pendingRegs.map (·.id)).Nodup) :
    (∀ i, (loadRegistrationQueue [] (some b) orderId env).selectedId = some i →
        ∃ p ∈ env.pendingRegs, p.id = i ∧ p.status = "pending" ∧ p.userId = b ∧
          env.now - twoHoursMs ≤ p.createdAt)
    ∧ (∀ p ∈ env.pendingRegs, p.createdAt < env.now - twoHoursMs →
      (loadRegistrationQueue [] (some b) orderId env).selectedId ≠ some p.id)
    ∧ (orderId ∈ env.seasonRegOrderIds →
        loadRegistrationQueue [] (some b) orderId env =
          ⟨[], "none", none, env.pendingRegs, []⟩)
    ∧ (∀ p regs, orderId ∉ env.seasonRegOrderIds →
        (pendingQuery b env).head? = some p → p.serialized = .good regs →
        env.updateThrows = false →
        loadRegistrationQueue [] (some b) orderId env =
          ⟨regs, "cms", some p.id,
            setPendingStatus env.pendingRegs p.id "processing", []⟩) := by
  have hload : loadRegistrationQueue [] (some b) orderId env =
      recoverLoop orderId env (pendingQuery b env) := by
    simp [loadRegistrationQueue, hq]
  have hsel : ∀ i,
      (loadRegistrationQueue [] (some b) orderId env).selectedId = some i →
      ∃ p ∈ env.pendingRegs, p.id = i ∧ p.status = "pending" ∧ p.userId = b ∧
        env.now - twoHoursMs ≤ p.createdAt := by
    intro i h
    rw [hload] at h
    rcases recoverLoop_selected orderId env _ i h with ⟨p, hp, he⟩
    rcases pendingQuery_mem b env p hp with ⟨hm, hu, hs, hc⟩
    exact ⟨p, hm, he, hs, hu, hc⟩
  refine ⟨hsel, ?_, ?_, ?_⟩
  · intro p hp hold h
    rcases hsel p.id h with ⟨p', hm', hid', hs', hu', hc'⟩
    have : p' = p := List.inj_on_of_nodup_map hn hm' hp hid'
    subst this
    omega
  · intro hx
    rw [hload]
    exact recoverLoop_processed orderId env (List.elem_iff.mpr hx) _
  · intro p regs hmem hhead hser hu
    rcases hq2 : pendingQuery b env with _ | ⟨p0, tail⟩
    · rw [hq2] at hhead; simp at hhead
    · rw [hq2] at hhead
      simp only [List.head?_cons, Option.some.injEq] at hhead
      subst hhead
      rw [hload, hq2]
      unfold recoverLoop
      have hcf : env.seasonRegOrderIds.contains orderId = false := by
        simp [hmem]
      simp [hcf, hser, hu]
      exact fun hx => absurd hx hmem

/-- C6, amended, witness: in a store holding a fresh record and a 3-hour-old
record, the stale record is never the selected one. -/
theorem C6_recovery_amended_witness :
    (loadRegistrationQueue [] (some "b1") "ordZ" envStale).selectedId ≠
      some "pendOld" := by
  have h := C6_recovery_amended "b1" "ordZ" envStale rfl (by decide)
  exact h.2.1 pendOld (by decide) (by decide)

/-- C10: when the session queue is empty, a thrown backup-store query, a
corrupt serialized payload (deserialization throws) or a thrown status
update is caught by `loadRegistrationQueue`'s catch block, which appends
one `CMS_RETRIEVAL_FAILED` audit record and returns the empty intent list
with source "none" instead of propagating the exception. -/
theorem C10_load_no_throw (b orderId : String) (env : CmsEnv) :
    (env.queryThrows = true →
      loadRegistrationQueue [] (some b) orderId env =
        ⟨[], "none", none, env.pendingRegs, ["CMS_RETRIEVAL_FAILED"]⟩)
    ∧ (∀ p, env.queryThrows = false → orderId ∉ env.seasonRegOrderIds →
        (pendingQuery b env).head? = some p → p.serialized = .corrupt →
        loadRegistrationQueue [] (some b) orderId env =
          ⟨[], "none", none, env.pendingRegs, ["CMS_RETRIEVAL_FAILED"]⟩)
    ∧ (∀ p regs, env.queryThrows = false → orderId ∉ env.seasonRegOrderIds →
        env.updateThrows = true →
        (pendingQuery b env).head? = some p → p.serialized = .good regs →
        loadRegistrationQueue [] (some b) orderId env =
          ⟨[], "none", none, env.pendingRegs, ["CMS_RETRIEVAL_FAILED"]⟩) := by
  have hcont : ∀ (h : orderId ∉ env.seasonRegOrderIds),
      env.seasonRegOrderIds.contains orderId = false := by
    intro h
    simp [h]
  refine ⟨?_, ?_, ?_⟩
  · intro hq
    simp [loadRegistrationQueue, hq]
  · intro p hq hmem hhead hser
    rcases hq2 : pendingQuery b env with _ | ⟨p0, tail⟩
    · rw [hq2] at hhead; simp at hhead
    · rw [hq2] at hhead
      simp only [List.head?_cons, Option.some.injEq] at hhead
      subst hhead
      simp [loadRegistrationQueue, hq, hq2, recoverLoop, hcont hmem, hser]
      exact fun hx => absurd hx hmem
  · intro p regs hq hmem hu hhead hser
    rcases hq2 : pendingQuery b env with _ | ⟨p0, tail⟩
    · rw [hq2] at hhead; simp at hhead
    · rw [hq2] at hhead
      simp only [List.head?_cons, Option.some.injEq] at hhead
      subst hhead
      simp [loadRegistrationQueue, hq, hq2, recoverLoop, hcont hmem, hser, hu]
      exact fun hx => absurd hx hmem

/-- C10, witness: a throwing backup-store query degrades to the empty
result with one `CMS_RETRIEVAL_FAILED` audit record. -/
theorem C10_load_no_throw_witness :
    loadRegistrationQueue [] (some "b1") "ordZ" envQueryThrows =
      ⟨[], "none", none, [pendA], ["CMS_RETRIEVAL_FAILED"]⟩ :=
  (C10_load_no_throw "b1" "ordZ" envQueryThrows).1 rfl

lemma outcomeAt_zero (outs : List SyncOutcome) :
    outcomeAt outs 0 = outs.headD .okRes := by
  cases outs <;> rfl

lemma outcomeAt_succ (outs : List SyncOutcome) (i : Nat) :
    outcomeAt outs (i + 1) = outcomeAt outs.tail i := by
  cases outs <;> rfl

lemma range_any_succ (n : Nat) (f : Nat → Bool) :
    (List.range (n + 1)).any f = (f 0 || (List.range n).any fun i => f (i + 1)) := by
  rw [List.range_succ_eq_map]
  simp [List.any_map, Function.comp_def, Nat.succ_eq_add_one]

lemma range_countP_succ (n : Nat) (f : Nat → Bool) :
    (List.range (n + 1)).countP f =
      ((if f 0 then 1 else 0) + (List.range n).countP fun i => f (i + 1)) := by
  rw [List.range_succ_eq_map]
  simp [List.countP_cons, List.countP_map, Function.comp_def, Nat.succ_eq_add_one]
  omega

/-- Characterization of the donation loop: the final sync flag, and the
audit-sink counts, as functions of the per-attempt outcomes. -/
lemma donationLoop_spec : ∀ (items : List LineItem) (outs : List SyncOutcome)
    (s : Bool) (aud : List String),
    (donationLoop items outs s aud).1 =
      (s || ((List.range (donCount items)).any fun i => outcomeAt outs i != .throwEx))
    ∧ (donationLoop items outs s aud).2.count "DONATION_SYNC_EXCEPTION" =
      aud.count "DONATION_SYNC_EXCEPTION" +
        ((List.range (donCount items)).countP fun i => outcomeAt outs i == .throwEx)
    ∧ (donationLoop items outs s aud).2.count "DONATION_SYNC_FAILED" =
      aud.count "DONATION_SYNC_FAILED" +
        ((List.range (donCount items)).countP fun i => outcomeAt outs i == .errRes) := by
  intro items
  induction items with
  | nil =>
    intro outs s aud
    simp [donationLoop, donCount, List.count_reverse]
  | cons li rest ih =>
    intro outs s aud
    rcases hd : donationAmount li.productId with _ | amt
    · have hc : donCount (li :: rest) = donCount rest := by
        simp [donCount, List.countP_cons, hd]
      unfold donationLoop
      rw [hd]
      rw [hc]
      exact ih outs s aud
    · have hc : donCount (li :: rest) = donCount rest + 1 := by
        simp [donCount, List.countP_cons, hd]
      unfold donationLoop
      rw [hd]
      simp only
      rcases ho : outs.headD .okRes with _ | _ | _
      · -- okRes
        rcases ih outs.tail true aud with ⟨h1, h2, h3⟩
        simp only
        refine ⟨?_, ?_, ?_⟩
        · rw [h1, hc, range_any_succ]
          simp only [outcomeAt_zero, outcomeAt_succ, ho]
          simp
        · rw [h2, hc, range_countP_succ]
          simp only [outcomeAt_zero, outcomeAt_succ, ho]
          simp
        · rw [h3, hc, range_countP_succ]
          simp only [outcomeAt_zero, outcomeAt_succ, ho]
          simp
      · -- errRes
        rcases ih outs.tail true ("DONATION_SYNC_FAILED" :: aud) with ⟨h1, h2, h3⟩
        simp only
        refine ⟨?_, ?_, ?_⟩
        · rw [h1, hc, range_any_succ]
          simp only [outcomeAt_zero, outcomeAt_succ, ho]
          simp
        · rw [h2, hc, range_countP_succ]
          simp only [outcomeAt_zero, outcomeAt_succ, ho, List.count_cons]
          simp
        · rw [h3, hc, range_countP_succ]
          simp only [outcomeAt_zero, outcomeAt_succ, ho, List.count_cons]
          simp
          omega
      · -- throwEx
        rcases ih outs.tail s ("DONATION_SYNC_EXCEPTION" :: aud) with ⟨h1, h2, h3⟩
        simp only
        refine ⟨?_, ?_, ?_⟩
        · rw [h1, hc, range_any_succ]
          simp only [outcomeAt_zero, outcomeAt_succ, ho]
          simp
        · rw [h2, hc, range_countP_succ]
          simp only [outcomeAt_zero, outcomeAt_succ, ho, List.count_cons]
          simp
          omega
        · rw [h3, hc, range_countP_succ]
          simp only [outcomeAt_zero, outcomeAt_succ, ho, List.count_cons]
          simp

/-- C8, amended: donation-sync failures are never fatal (the loop always
runs to completion), and when `isDonationSynced` already holds the whole
step is skipped; for the first run of an order, the donation-sync flag ends
set iff at least one donation attempt returned a result object — success or
error result — rather than throwing; each error result is logged as
`DONATION_SYNC_FAILED` and each thrown exception as
`DONATION_SYNC_EXCEPTION`, but a thrown exception does NOT set the flag, so
if every donation attempt threw, the flag stays unset and the donation sync
IS retried on a subsequent invocation of the order. -/
theorem C8_donation_sync_amended (items : List LineItem) (outs : List SyncOutcome) :
    processDonations true items outs = (true, [])
    ∧ (processDonations false items outs).1 =
      ((List.range (donCount items)).any fun i => outcomeAt outs i != .throwEx)
    ∧ (processDonations false items outs).2.count "DONATION_SYNC_EXCEPTION" =
      ((List.range (donCount items)).countP fun i => outcomeAt outs i == .throwEx)
    ∧ (processDonations false items outs).2.count "DONATION_SYNC_FAILED" =
      ((List.range (donCount items)).countP fun i => outcomeAt outs i == .errRes) := by
  rcases donationLoop_spec items outs false [] with ⟨h1, h2, h3⟩
  refine ⟨rfl, ?_, ?_, ?_⟩
  · simpa using h1
  · simpa using h2
  · simpa using h3

/-- Under positive quantities, the code's slot expansion (quantity || 1)
coincides with the spec's one-slot-per-unit expansion. -/
lemma buildSlotsAux_eq_spec : ∀ (ls : List LineItem) (n : Nat),
    (∀ li ∈ ls, li.quantity ≠ 0) → buildSlotsAux ls n = specSlotsAux ls n := by
  intro ls
  induction ls with
  | nil => intro n _; rfl
  | cons li rest ih =>
    intro n h
    have h0 : li.quantity ≠ 0 := h li (List.mem_cons_self _ _)
    have hk : (if (li.quantity == 0) = true then 1 else li.quantity) =
        li.quantity := by
      simp [h0]
    unfold buildSlotsAux specSlotsAux
    simp only [hk]
    rw [ih (n + li.quantity) fun x hx => h x (List.mem_cons_of_mem _ hx)]

lemma bindFirst_none {r : Registration} : ∀ {slots : List Slot},
    firstQualifying r slots = none → bindFirst r slots = none := by
  intro slots
  induction slots with
  | nil => intro _; rfl
  | cons s rest ih =>
    intro h
    unfold firstQualifying at h
    by_cases hq : slotQualifies r s = true
    · rw [if_pos hq] at h; cases h
    · rw [if_neg hq] at h
      rw [Option.map_eq_none'] at h
      unfold bindFirst
      rw [if_neg hq, ih h]

lemma firstQualifying_get {r : Registration} : ∀ {slots : List Slot} {i : Nat},
    firstQualifying r slots = some i →
    ∃ s, slots.get? i = some s ∧ slotQualifies r s = true := by
  intro slots
  induction slots with
  | nil => intro i h; cases h
  | cons s rest ih =>
    intro i h
    unfold firstQualifying at h
    by_cases hq : slotQualifies r s = true
    · rw [if_pos hq] at h
      cases h
      exact ⟨s, rfl, hq⟩
    · rw [if_neg hq] at h
      rcases Option.map_eq_some'.mp h with ⟨j, hj, he⟩
      subst he
      rcases ih hj with ⟨t, ht, hqt⟩
      exact ⟨t, by simpa using ht, hqt⟩

lemma bindFirst_some {r : Registration} : ∀ {slots : List Slot} {i : Nat} {s : Slot},
    firstQualifying r slots = some i → slots.get? i = some s →
    bindFirst r slots = some (markUsedAt slots i, s) := by
  intro slots
  induction slots with
  | nil => intro i s h _; cases h
  | cons a rest ih =>
    intro i s h hg
    unfold firstQualifying at h
    by_cases hq : slotQualifies r a = true
    · rw [if_pos hq] at h
      cases h
      rw [List.get?_cons_zero] at hg
      cases hg
      unfold bindFirst
      rw [if_pos hq]
      rfl
    · rw [if_neg hq] at h
      rcases Option.map_eq_some'.mp h with ⟨j, hj, he⟩
      subst he
      rw [List.get?_cons_succ] at hg
      unfold bindFirst
      rw [if_neg hq, ih hj hg]
      rfl

/-- The code's findIndex-and-mark loop computes exactly the spec's scan
(first unused slot whose descriptor contains the division label). -/
lemma matchLoop_eq_specLoop : ∀ (regs : List Registration) (slots : List Slot),
    matchLoop regs slots = specLoop regs slots := by
  intro regs
  induction regs with
  | nil => intro slots; rfl
  | cons r rs ih =>
    intro slots
    unfold matchLoop specLoop
    rcases hf : firstQualifying r slots with _ | i
    · rw [bindFirst_none hf, ih]
    · rcases firstQualifying_get hf with ⟨s, hg, hq⟩
      rw [bindFirst_some hf hg]
      simp only [hg, ih]

lemma bindFirst_decomp {r : Registration} : ∀ {slots slots' : List Slot} {b : Slot},
    bindFirst r slots = some (slots', b) →
    ∃ l1 l2, slots = l1 ++ b :: l2 ∧
      slots' = l1 ++ { b with used := true } :: l2 ∧
      slotQualifies r b = true := by
  intro slots
  induction slots with
  | nil => intro slots' b h; cases h
  | cons s rest ih =>
    intro slots' b h
    unfold bindFirst at h
    by_cases hq : slotQualifies r s = true
    · rw [if_pos hq] at h
      cases h
      exact ⟨[], rest, rfl, rfl, hq⟩
    · rw [if_neg hq] at h
      rcases hr : bindFirst r rest with _ | pr
      · rw [hr] at h; cases h
      · rcases pr with ⟨rest', b'⟩
        rw [hr] at h
        cases h
        rcases ih hr with ⟨l1, l2, he1, he2, hq'⟩
        exact ⟨s :: l1, l2, by rw [he1]; rfl, by rw [he2]; rfl, hq'⟩

lemma unusedIdx_decomp {r : Registration} {slots slots' : List Slot} {b : Slot}
    (h : bindFirst r slots = some (slots', b)) :
    ∃ m1 m2, unusedIdx slots = m1 ++ b.idx :: m2 ∧ unusedIdx slots' = m1 ++ m2 := by
  rcases bindFirst_decomp h with ⟨l1, l2, he1, he2, hq⟩
  have hbu : b.used = false := by
    unfold slotQualifies at hq
    simp only [Bool.and_eq_true] at hq
    rcases hq with ⟨h1, _⟩
    simpa using h1
  subst he1
  subst he2
  refine ⟨(l1.filter fun s => !s.used).map (·.idx),
          (l2.filter fun s => !s.used).map (·.idx), ?_, ?_⟩
  · unfold unusedIdx
    rw [List.filter_append, List.map_append]
    congr 1
    rw [List.filter_cons]
    simp [hbu]
  · unfold unusedIdx
    rw [List.filter_append, List.map_append]
    congr 1

/-- Bound slot positions are pairwise distinct: each slot is bound to at
most one intent. -/
lemma matchLoop_nodup : ∀ (regs : List Registration) (slots : List Slot),
    (unusedIdx slots).Nodup →
    ((matchLoop regs slots).1.map fun p => p.2.idx).Nodup
    ∧ ∀ i ∈ (matchLoop regs slots).1.map fun p => p.2.idx, i ∈ unusedIdx slots := by
  intro regs
  induction regs with
  | nil =>
    intro slots h
    constructor
    · simp [matchLoop]
    · intro i hi
      simp [matchLoop] at hi
  | cons r rs ih =>
    intro slots h
    rcases hb : bindFirst r slots with _ | pr
    · have hml : matchLoop (r :: rs) slots =
          ((matchLoop rs slots).1, r :: (matchLoop rs slots).2) := by
        simp only [matchLoop, hb]
      rw [hml]
      exact ih slots h
    · rcases pr with ⟨slots', b⟩
      have hml : matchLoop (r :: rs) slots =
          ((r, b) :: (matchLoop rs slots').1, (matchLoop rs slots').2) := by
        simp only [matchLoop, hb]
      rw [hml]
      rcases unusedIdx_decomp hb with ⟨m1, m2, he, he'⟩
      have hperm : List.Perm (unusedIdx slots) (b.idx :: (m1 ++ m2)) := by
        rw [he]
        exact List.perm_middle
      have hn : (b.idx :: (m1 ++ m2)).Nodup := hperm.nodup_iff.mp h
      rcases List.nodup_cons.mp hn with ⟨hnb, hnm⟩
      have hrec := ih slots' (by rw [he']; exact hnm)
      constructor
      · rw [List.map_cons, List.nodup_cons]
        refine ⟨fun hmem => ?_, hrec.1⟩
        have h2 := hrec.2 _ hmem
        rw [he'] at h2
        exact hnb h2
      · intro i hi
        rw [List.map_cons] at hi
        rcases List.mem_cons.mp hi with h1 | h1
        · subst h1
          rw [he]
          exact List.mem_append.mpr (Or.inr (List.mem_cons_self _ _))
        · have h2 := hrec.2 i h1
          rw [he'] at h2
          rw [he]
          rcases List.mem_append.mp h2 with h3 | h3
          · exact List.mem_append.mpr (Or.inl h3)
          · exact List.mem_append.mpr (Or.inr (List.mem_cons_of_mem _ h3))

lemma buildSlotsAux_unused : ∀ (ls : List LineItem) (n : Nat) (s : Slot),
    s ∈ buildSlotsAux ls n → s.used = false := by
  intro ls
  induction ls with
  | nil => intro n s h; cases h
  | cons li rest ih =>
    intro n s h
    simp only [buildSlotsAux] at h
    rcases List.mem_append.mp h with h1 | h1
    · rcases List.mem_map.mp h1 with ⟨j, _, he⟩
      rw [← he]
    · exact ih _ s h1

lemma unusedIdx_buildSlotsAux (ls : List LineItem) (n : Nat) :
    unusedIdx (buildSlotsAux ls n) = (buildSlotsAux ls n).map (·.idx) := by
  unfold unusedIdx
  congr 1
  apply List.filter_eq_self.mpr
  intro s hs
  simp [buildSlotsAux_unused ls n s hs]

lemma mem_idx_buildSlotsAux : ∀ (ls : List LineItem) (n : Nat) (i : Nat),
    i ∈ (buildSlotsAux ls n).map (·.idx) → n ≤ i := by
  intro ls
  induction ls with
  | nil => intro n i h; simp [buildSlotsAux] at h
  | cons li rest ih =>
    intro n i h
    simp only [buildSlotsAux, List.map_append, List.map_map] at h
    rcases List.mem_append.mp h with h1 | h1
    · rcases List.mem_map.mp h1 with ⟨j, hj, he⟩
      rw [← he]
      exact Nat.le_add_right n j
    · have := ih _ i h1
      omega

lemma nodup_idx_buildSlotsAux : ∀ (ls : List LineItem) (n : Nat),
    ((buildSlotsAux ls n).map (·.idx)).Nodup := by
  intro ls
  induction ls with
  | nil => intro n; simp [buildSlotsAux]
  | cons li rest ih =>
    intro n
    simp only [buildSlotsAux, List.map_append, List.map_map]
    rw [List.nodup_append]
    refine ⟨?_, ih _, ?_⟩
    · have he : ((fun s : Slot => s.idx) ∘ fun j =>
          (⟨n + j, li, false⟩ : Slot)) = fun j => n + j := rfl
      rw [he]
      exact List.Nodup.map (fun a b hab => by omega) (List.nodup_range _)
    · intro a ha hb
      rcases List.mem_map.mp ha with ⟨j, hj, he⟩
      rw [List.mem_range] at hj
      have h2 := mem_idx_buildSlotsAux rest _ a hb
      simp only [Function.comp] at he
      omega

/-- Every input intent lands exactly once in matched or unmatched. -/
lemma matchLoop_count : ∀ (regs : List Registration) (slots : List Slot)
    (r : Registration),
    regs.count r = ((matchLoop regs slots).1.map Prod.fst).count r +
      (matchLoop regs slots).2.count r := by
  intro regs
  induction regs with
  | nil => intro slots r; simp [matchLoop]
  | cons a rs ih =>
    intro slots r
    rcases hb : bindFirst a slots with _ | pr
    · have hml : matchLoop (a :: rs) slots =
          ((matchLoop rs slots).1, a :: (matchLoop rs slots).2) := by
        simp only [matchLoop, hb]
      rw [hml]
      have := ih slots r
      simp only [List.count_cons]
      omega
    · rcases pr with ⟨slots', b⟩
      have hml : matchLoop (a :: rs) slots =
          ((a, b) :: (matchLoop rs slots').1, (matchLoop rs slots').2) := by
        simp only [matchLoop, hb]
      rw [hml]
      have := ih slots' r
      simp only [List.map_cons, List.count_cons]
      omega

/-- C5: on line items with positive quantities, the matching function
equals the greedy assignment the spec describes (slots expanded one per
unit in source order; each intent, in list order, bound to the first unused
slot whose descriptor contains its division label, the slot marked used;
otherwise the intent goes to unmatched); consequently each slot is bound to
at most one intent (bound slot positions are pairwise distinct), every
input intent appears exactly once in matched or unmatched (counted with
multiplicity), and repeated invocation returns the same assignment. -/
theorem C5_matching_greedy (q : List Registration) (ls : List LineItem)
    (hq : ∀ li ∈ ls, li.quantity ≠ 0) :
    matchRegistrationsToLineItems q ls = specMatch q ls
    ∧ ((matchRegistrationsToLineItems q ls).1.map fun p => p.2.idx).Nodup
    ∧ (∀ r : Registration, q.count r =
        ((matchRegistrationsToLineItems q ls).1.map Prod.fst).count r +
          (matchRegistrationsToLineItems q ls).2.count r)
    ∧ matchRegistrationsToLineItems q ls = matchRegistrationsToLineItems q ls := by
  refine ⟨?_, ?_, fun r => matchLoop_count q _ r, rfl⟩
  · unfold matchRegistrationsToLineItems specMatch buildSlots specSlots
    rw [matchLoop_eq_specLoop, buildSlotsAux_eq_spec ls 0 hq]
  · unfold matchRegistrationsToLineItems buildSlots
    refine (matchLoop_nodup q _ ?_).1
    rw [unusedIdx_buildSlotsAux]
    exact nodup_idx_buildSlotsAux ls 0

/-- C5, witness: the scenario instance — one Majors intent against the
quantity-1 Majors line item — where the code matches the spec's greedy
assignment. -/
theorem C5_matching_greedy_witness :
    matchRegistrationsToLineItems [regMajors] [liMajors1] =
      specMatch [regMajors] [liMajors1]
    ∧ (matchRegistrationsToLineItems [regMajors] [liMajors1]).1.map Prod.fst =
      [regMajors] := by
  have h := C5_matching_greedy [regMajors] [liMajors1] (by decide)
  exact ⟨h.1, rfl⟩

/-- C9, witness: the breaker opened by five failures at time 0 fails fast
at time 30000 without invoking the operation, and at time 60000 a
successful trial closes it with counters reset. -/
theorem C9_circuit_breaker_witness :
    cbExecute (⟨.opened, 5, 0, some 60000⟩ : Breaker) 30000 .success =
      (⟨.opened, 5, 0, some 60000⟩, false, .circuitOpen)
    ∧ cbExecute (⟨.opened, 5, 0, some 60000⟩ : Breaker) 60000 .success =
      (⟨.closed, 0, 0, none⟩, true, .ok) := by
  constructor
  · exact C9_circuit_breaker.2.1 _ 30000 60000 .success rfl rfl (by norm_num)
  · exact (C9_circuit_breaker.2.2 _ 60000 60000 rfl rfl (by norm_num)).1

end FWULL
